import Mathlib

/-!
Verification of the remote-discovery and divergence-computation core of the
git-subtree-remote command-line tool.

The Python sources are shallowly embedded:
* Python strings are `List Char` (`PyStr`); single-character `str.split`,
  `str.rsplit`, `os.path.basename`, `os.path.join` and `str.rstrip` are
  reproduced as executable functions on `List Char`.
* Outbound HTTP (the GitHub REST API) and the local filesystem / git history
  are oracles: records of functions supplied as parameters.  An HTTP `GET`
  followed by `raise_for_status()` is an `Except Nat _` value, whose `error`
  case carries the HTTP status that raised (a non-2xx/3xx status).
* Python exceptions are the `PyErr` sum type propagated through `Except`.
* The interactive `click.prompt(..., type=click.IntRange(lo, hi))` call is
  modelled by the transcript of integers the user types: the prompt loop
  returns the first in-range entry and blocks forever (`Option.none` at the
  top level of the caller) when no valid entry is ever typed.
-/

set_option maxRecDepth 10000

deriving instance DecidableEq for Except

namespace GSR

/-- A Python string, as its sequence of characters. -/
abbrev PyStr := List Char

/-- The Python exceptions raised by the embedded code. -/
inductive PyErr where
  /-- `KeyError(msg)` -/
  | keyError (msg : PyStr)
  /-- `ValueError(msg)` -/
  | valueError (msg : PyStr)
  /-- `requests.exceptions.HTTPError` carrying the response status -/
  | httpError (status : Nat)
  /-- `IndexError` from an out-of-range sequence subscript -/
  | indexError
  /-- `click.BadParameter(msg)` -/
  | badParameter (msg : PyStr)
  deriving DecidableEq, Repr

/-- Truthiness of an optional Python string: `None` and the empty string are
falsy. -/
def pyTruthyStr : Option PyStr → Bool
  | none => false
  | some s => !s.isEmpty

/-- `s.rstrip(c)` for a single character: drop trailing copies of `c`. -/
def pyRstrip (c : Char) (s : PyStr) : PyStr :=
  (s.reverse.dropWhile (· == c)).reverse

/-- `s.rsplit(sep, 2)` for a single-character separator: at most two splits,
taken from the right. -/
def pyRsplit2 (sep : Char) (s : PyStr) : List PyStr :=
  let parts := s.splitOn sep
  if parts.length ≤ 3 then parts
  else List.intercalate [sep] (parts.take (parts.length - 2)) :: parts.drop (parts.length - 2)

/-- `os.path.basename(s)`: the part after the last separator. -/
def pyBasename (s : PyStr) : PyStr :=
  (s.splitOn '/').getLastD []

/-- `os.path.join(a, b)` for two separator-free components (`join` drops an
empty leading component rather than producing a leading separator). -/
def pyJoin2 (a b : PyStr) : PyStr :=
  if a.isEmpty then b else a ++ '/' :: b

/-- The exact-lookup candidate `os.path.join(*split[-2:])` built from the
last two entries of the rsplit result. -/
def exact_name_of_split (split : List PyStr) : PyStr :=
  pyJoin2 ((split.drop (split.length - 2)).getD 0 [])
    ((split.drop (split.length - 2)).getD 1 [])

/-- A commit object, reduced to the field the core reads (`commit['sha']`). -/
structure Commit where
  sha : PyStr
  deriving DecidableEq, Repr

/-- A tag object: `tag['name']` and `tag['commit']['sha']`. -/
structure Tag where
  name : PyStr
  commit_sha : PyStr
  deriving DecidableEq, Repr

/-- A repository object from the hosting API, reduced to the fields the core
reads: `repo['name']`, `repo['score']` (search results) and
`repo['html_url']`.  Scores are modelled as rationals. -/
structure Repo where
  name : PyStr
  score : ℚ
  html_url : PyStr
  deriving DecidableEq, Repr

/-- The JSON body of a compare-endpoint response, reduced to the keys the core
reads: `status`, `ahead_by`, `commits`. -/
structure CommitsSince where
  status : PyStr
  ahead_by : Nat
  commits : List Commit
  deriving DecidableEq, Repr

/-- The GitHub REST API as an oracle.  Each field is one endpoint; an
`Except.error s` result stands for `raise_for_status()` raising with HTTP
status `s`.  URL templates (`compare_url`, `commits_url`, `tags_url`) are
keyed by the repository object they came from. -/
structure GitHub where
  /-- `GET /repos/{owner_slash_name}` -/
  repos : PyStr → Except Nat Repo
  /-- the `items` array of `GET /search/repositories?q={q}&in=name` -/
  searchItems : PyStr → Except Nat (List Repo)
  /-- `GET repo.compare_url.format(base=ref, head=master)` -/
  compare : Repo → PyStr → Except Nat CommitsSince
  /-- the successive pages of `GET repo.commits_url + per_page=100`,
  following `next` links; one list entry per page fetch -/
  commitPages : Repo → List (Except Nat (List Commit))
  /-- `GET repo.tags_url` -/
  tags : Repo → Except Nat (List Tag)

/-- Source `remote.repo_for_exact_name`: fetch the repo with the given
`owner/name` id; a 404 becomes `KeyError`, any other raising status
propagates as the HTTP error. -/
def repo_for_exact_name (gh : GitHub) (repo_exact_name : PyStr) : Except PyErr Repo :=
  match gh.repos repo_exact_name with
  | .ok r => .ok r
  | .error status =>
    if status == 404 then .error (.keyError (("Not found: ".data) ++ repo_exact_name))
    else .error (.httpError status)

/-- The owner/name strings tried by `repo_for_kebab_name`, in loop order:
`kebabs = repo_partial_name.split(sep)` and, for each index `i`, the string
`sep.join(kebabs[0:i+1]) ++ sep.join(kebabs[i+1:])` around a slash. -/
def kebab_candidates (repo_partial_name : PyStr) : List PyStr :=
  let kebabs := repo_partial_name.splitOn '-'
  (List.range kebabs.length).map fun i =>
    List.intercalate ['-'] (kebabs.take (i + 1)) ++ '/' :: List.intercalate ['-'] (kebabs.drop (i + 1))

/-- The `for`/`try`/`except KeyError` loop of `repo_for_kebab_name`: return
the first successful exact lookup, let non-`KeyError` exceptions propagate,
and re-raise the last `KeyError` when every candidate fails.  `last_err` is
the `key_err` variable left over from the previous iteration. -/
def kebab_loop (gh : GitHub) : List PyStr → PyErr → Except PyErr Repo
  | [], last_err => .error last_err
  | n :: ns, _ =>
    match repo_for_exact_name gh n with
    | .ok r => .ok r
    | .error (.keyError m) => kebab_loop gh ns (.keyError m)
    | .error e => .error e

/-- Source `remote.repo_for_kebab_name`: try every hyphen split of the
basename as an exact `owner/name` id.  The initial `last_err` value is
unreachable because `split` never returns an empty list. -/
def repo_for_kebab_name (gh : GitHub) (repo_partial_name : PyStr) : Except PyErr Repo :=
  kebab_loop gh (kebab_candidates repo_partial_name) (.keyError [])

/-- Source `remote.is_confident_match`: `[False] * len(scores)` with entry 0
set when `scores[0] > 50 and scores[0] - scores[1] > 30`.  The Python `and`
short-circuits, so `scores[1]` is only read when `scores[0] > 50`; an
out-of-range subscript raises `IndexError`. -/
def is_confident_match (scores : List ℚ) : Except PyErr (List Bool) :=
  let high_score : ℚ := 50
  let high_difference : ℚ := 30
  let result := List.replicate scores.length false
  match scores[0]? with
  | none => .error .indexError
  | some s0 =>
    if s0 > high_score then
      match scores[1]? with
      | none => .error .indexError
      | some s1 =>
        if s0 - s1 > high_difference then .ok (result.set 0 true) else .ok result
    else .ok result

/-- `click.prompt(..., type=click.IntRange(lo, hi))` over the transcript of
integers the user types: the first in-range entry, or `none` when no valid
entry is ever typed (the real prompt re-prompts forever). -/
def click_prompt_IntRange (inputs : List Int) (lo hi : Int) : Option Int :=
  inputs.find? fun x => lo ≤ x && x ≤ hi

/-- Source `remote.prompt_to_disambiguate_repos`: prompt for a number between
1 and `len(repos)` and return the picked 0-based index. -/
def prompt_to_disambiguate_repos (inputs : List Int) (repos : List Repo) : Option Nat :=
  match click_prompt_IntRange inputs 1 (repos.length : Int) with
  | none => none
  | some c => some (c - 1).toNat

/-- Source `remote.repo_for_partial_name`: search by name, keep only items
whose `name` equals the query, then pick index 0 when there is a single
candidate or a confident top score, otherwise prompt the user.  The outer
`Option` is `none` when the prompt blocks forever. -/
def repo_for_partial_name (gh : GitHub) (inputs : List Int) (repo_partial_name : PyStr) :
    Option (Except PyErr Repo) :=
  match gh.searchItems repo_partial_name with
  | .error status => some (.error (.httpError status))
  | .ok items =>
    let repos_with_name := items.filter fun r => r.name == repo_partial_name
    let scores := repos_with_name.map Repo.score
    if repos_with_name.isEmpty then
      some (.error (.valueError (("No remotes found for ".data) ++ repo_partial_name)))
    else if repos_with_name.length == 1 then
      match repos_with_name[0]? with
      | some r => some (.ok r)
      | none => some (.error .indexError)
    else
      match is_confident_match scores with
      | .error e => some (.error e)
      | .ok bools =>
        match bools[0]? with
        | none => some (.error .indexError)
        | some confident0 =>
          if confident0 then
            match repos_with_name[0]? with
            | some r => some (.ok r)
            | none => some (.error .indexError)
          else
            match prompt_to_disambiguate_repos inputs repos_with_name with
            | none => none
            | some repo_i =>
              match repos_with_name[repo_i]? with
              | some r => some (.ok r)
              | none => some (.error .indexError)

/-- The `while next_commits_url` pagination loop of `repo_commits_since`:
fetch each page in order, `raise_for_status()` on a failing page, and
concatenate the page bodies. -/
def fetch_commit_pages : List (Except Nat (List Commit)) → Except PyErr (List Commit)
  | [] => .ok []
  | .error status :: _ => .error (.httpError status)
  | .ok page :: rest =>
    match fetch_commit_pages rest with
    | .ok more => .ok (page ++ more)
    | .error e => .error e

/-- Source `diff.repo_commits_since`: with a truthy `since_ref`, call the
compare endpoint (`base=since_ref`, `head=master`) and return its body;
otherwise enumerate every commit on the default branch page by page and
synthesize an `ahead` result. -/
def repo_commits_since (gh : GitHub) (repo : Repo) (since_ref : Option PyStr) :
    Except PyErr CommitsSince :=
  if pyTruthyStr since_ref then
    match gh.compare repo (since_ref.getD []) with
    | .ok body => .ok body
    | .error status => .error (.httpError status)
  else
    match fetch_commit_pages (gh.commitPages repo) with
    | .ok commits => .ok ⟨"ahead".data, commits.length, commits⟩
    | .error e => .error e

/-- Source `diff.tags_in_commits`: fetch all tags of the repo and keep those
whose target sha is a key of the sha-indexed dict built from `commits`. -/
def tags_in_commits (gh : GitHub) (repo : Repo) (commits : List Commit) :
    Except PyErr (List Tag) :=
  match gh.tags repo with
  | .error status => .error (.httpError status)
  | .ok all_tags =>
    .ok (all_tags.filter fun tag => commits.any fun commit => commit.sha == tag.commit_sha)

/-- A local subtree: the `prefix` argument (field `prefix` in the source,
renamed here) and the `git-subtree-split` hash recorded at the last import,
absent when the path was missing. -/
structure Subtree where
  prefix_path : PyStr
  last_split_ref : Option PyStr
  deriving DecidableEq, Repr

/-- Source property `Subtree.exists`: `bool(self.last_split_ref)`. -/
def Subtree.subtree_exists (s : Subtree) : Bool :=
  pyTruthyStr s.last_split_ref

/-- The resolved association of source `remote.SubtreeRemote`. -/
structure SubtreeRemote where
  subtree : Subtree
  repo : Repo
  commits_since : CommitsSince
  tags_since : List Tag
  deriving DecidableEq, Repr

/-- Source property `SubtreeRemote.is_ahead`: `bool(commits_since[ahead_by])`. -/
def SubtreeRemote.is_ahead (r : SubtreeRemote) : Bool :=
  r.commits_since.ahead_by != 0

/-- Source property `SubtreeRemote.is_diverged`. -/
def SubtreeRemote.is_diverged (r : SubtreeRemote) : Bool :=
  r.commits_since.status == "diverged".data

/-- The three-strategy resolution at the head of `remote.find_subtree_remote`:
exact lookup on the last two path segments when the path has at least two
segments, then the kebab splits of the basename when it contains a hyphen,
then the fuzzy search; `KeyError` from a strategy falls through to the next,
every other exception propagates. -/
def find_remote_repo (gh : GitHub) (inputs : List Int) (path_arg : PyStr) :
    Option (Except PyErr Repo) :=
  let stripped := pyRstrip '/' path_arg
  let split := pyRsplit2 '/' stripped
  let stage1 : Except PyErr (Option Repo) :=
    if 2 ≤ split.length then
      match repo_for_exact_name gh (exact_name_of_split split) with
      | .ok r => .ok (some r)
      | .error (.keyError _) => .ok none
      | .error e => .error e
    else .ok none
  match stage1 with
  | .error e => some (.error e)
  | .ok found1 =>
    let repo_partial_name := pyBasename stripped
    let stage2 : Except PyErr (Option Repo) :=
      match found1 with
      | some r => .ok (some r)
      | none =>
        if repo_partial_name.contains '-' then
          match repo_for_kebab_name gh repo_partial_name with
          | .ok r => .ok (some r)
          | .error (.keyError _) => .ok none
          | .error e => .error e
        else .ok none
    match stage2 with
    | .error e => some (.error e)
    | .ok (some r) => some (.ok r)
    | .ok none => repo_for_partial_name gh inputs repo_partial_name

/-- Source `remote.find_subtree_remote`: resolve the remote repo from the
path, then fetch the divergence summary and the matching tags. -/
def find_subtree_remote (gh : GitHub) (inputs : List Int) (subtree : Subtree) :
    Option (Except PyErr SubtreeRemote) :=
  match find_remote_repo gh inputs subtree.prefix_path with
  | none => none
  | some (.error e) => some (.error e)
  | some (.ok remote_repo) =>
    match repo_commits_since gh remote_repo subtree.last_split_ref with
    | .error e => some (.error e)
    | .ok commits_since =>
      match tags_in_commits gh remote_repo commits_since.commits with
      | .error e => some (.error e)
      | .ok tags_since => some (.ok ⟨subtree, remote_repo, commits_since, tags_since⟩)

/-- The local git repository and filesystem as oracles: the sorted existing
prefixes with a recorded `git-subtree-dir` marker (`all_subtree_prefixes`),
`os.path.exists`, and the `git log` + regex scan (the source function
named after the last split ref), which may raise (e.g. when the marker regex
finds nothing). -/
structure LocalRepo where
  all_subtree_prefixes : List PyStr
  path_exists : PyStr → Bool
  last_split_ref_scan : PyStr → Except PyErr PyStr

/-- The per-prefix constructor inside source `local.validate_subtrees`:
`ref` stays `None` when the path does not exist, otherwise the local history
is scanned for the last split ref. -/
def mk_subtree (local_repo : LocalRepo) (p : PyStr) : Except PyErr Subtree :=
  if local_repo.path_exists p then
    match local_repo.last_split_ref_scan p with
    | .ok ref => .ok ⟨p, some ref⟩
    | .error e => .error e
  else .ok ⟨p, none⟩

/-- Source `local.validate_subtrees`: validate `--all` or the variadic
prefixes, then build one `Subtree` per prefix. -/
def validate_subtrees (local_repo : LocalRepo) (is_all : Bool) (prefixes : List PyStr) :
    Except PyErr (List Subtree) :=
  if is_all then
    if local_repo.all_subtree_prefixes.isEmpty then
      .error (.valueError ("No subtrees found in this repo".data))
    else (local_repo.all_subtree_prefixes).mapM (mk_subtree local_repo)
  else if prefixes.isEmpty then
    .error (.valueError ("At least 1 subtree prefix is required (or set --all)".data))
  else prefixes.mapM (mk_subtree local_repo)

/-- The list comprehension in source `command.validate_subtree_remotes`:
resolve each subtree in order; the first blocked prompt blocks the whole
batch, the first exception propagates and abandons the rest. -/
def find_remotes_loop (f : Subtree → Option (Except PyErr SubtreeRemote)) :
    List Subtree → Option (Except PyErr (List SubtreeRemote))
  | [] => some (.ok [])
  | subtree :: rest =>
    match f subtree with
    | none => none
    | some (.error e) => some (.error e)
    | some (.ok r) =>
      match find_remotes_loop f rest with
      | none => none
      | some (.error e) => some (.error e)
      | some (.ok rs) => some (.ok (r :: rs))

/-- Source `command.validate_subtree_remotes`: validate the subtrees (a
`ValueError` becomes `click.BadParameter`), then resolve each one through the
rate-limited finder.  The rate limiter only delays calls, so it does not
appear in the value-level model; `inputsFor` is the per-subtree transcript of
prompt entries. -/
def validate_subtree_remotes (local_repo : LocalRepo) (gh : GitHub)
    (inputsFor : Subtree → List Int) (is_all : Bool) (prefixes : List PyStr) :
    Option (Except PyErr (List SubtreeRemote)) :=
  match validate_subtrees local_repo is_all prefixes with
  | .error (.valueError m) => some (.error (.badParameter m))
  | .error e => some (.error e)
  | .ok subtrees => find_remotes_loop (fun s => find_subtree_remote gh (inputsFor s) s) subtrees

/-- Source `remote.remote_headers`: always the `Accept` header, plus an
`Authorization` header when the `GITHUB_TOKEN` environment variable is set
(and non-empty, by truthiness). -/
def remote_headers (token : Option PyStr) : List (PyStr × PyStr) :=
  let headers := [("Accept".data, "application/vnd.github.v3+json".data)]
  if pyTruthyStr token then
    headers ++ [("Authorization".data, "token ".data ++ token.getD [])]
  else headers

/-- Python `key in headers` for the header dict. -/
def headers_contains (headers : List (PyStr × PyStr)) (key : PyStr) : Bool :=
  headers.any fun kv => kv.1 == key

/-- The `search_max_per_minute` constant of
`remote.rate_limit_find_subtree_remote`: 30 with an `Authorization` header,
else 10. -/
def search_max_per_minute (headers : List (PyStr × PyStr)) : Nat :=
  if headers_contains headers ("Authorization".data) then 30 else 10

/-- The `search_buffer_s` constant. -/
def search_buffer_s : Nat := 30

/-- The period handed to `RatedSemaphore`: `60 + search_buffer_s` seconds. -/
def rated_semaphore_period : Nat := 60 + search_buffer_s

/-- Timed model of `utilities.RatedSemaphore(value, period)` replenishment:
the `Timer` fires `period` seconds after construction and the loop then
releases one token every `period / value` seconds, so the k-th (0-based)
release happens at `period + k * (period / value)` (model time, seconds). -/
def release_time (value : Nat) (period : ℚ) (k : Nat) : ℚ :=
  period + k * (period / value)

/-- Timed model of `n` acquisitions issued back-to-back at time 0 against
`RatedSemaphore(value, period)`: the bounded semaphore starts full, so the
first `value` acquisitions are granted immediately; `release()` is a no-op,
so each later acquisition is granted at the next timed replenishment. -/
def grant_time (value : Nat) (period : ℚ) (k : Nat) : ℚ :=
  if k < value then 0 else release_time value period (k - value)

/-- How many of the first `n` back-to-back acquisitions have been granted by
model time `t`. -/
def grants_by (value : Nat) (period t : ℚ) (n : Nat) : Nat :=
  (List.range n).countP fun k => grant_time value period k ≤ t

/-- How many of the first `n` scheduled replenishments have happened by model
time `t`. -/
def releases_by (value : Nat) (period t : ℚ) (n : Nat) : Nat :=
  (List.range n).countP fun k => release_time value period k ≤ t

/-- The number of hyphens in a basename. -/
def hyphen_count (s : PyStr) : Nat :=
  s.countP (· == '-')

/-! ### Concrete oracles used by witnesses and counterexamples -/

/-- An API on which every exact lookup 404s, every search is a 500 transport
failure, compare is a 500, there are no commit pages and no tags. -/
def ghAll404 : GitHub :=
  ⟨fun _ => .error 404, fun _ => .error 500, fun _ _ => .error 500, fun _ => [], fun _ => .ok []⟩

/-- The repository behind `o/libb` in the batch counterexample. -/
def repoB : Repo := ⟨"libb".data, 0, []⟩

/-- Batch counterexample API: `o/libb` exists, every search raises a 500. -/
def ghC1 : GitHub :=
  ⟨fun n => if n == "o/libb".data then .ok repoB else .error 404,
    fun _ => .error 500, fun _ _ => .error 500, fun _ => [], fun _ => .ok []⟩

/-- Batch counterexample local repo: no path exists, no recorded subtrees. -/
def lrC1 : LocalRepo := ⟨[], fun _ => false, fun _ => .error .indexError⟩

/-- The repository behind the kebab counterexample lookup. -/
def repoAB : Repo := ⟨"b".data, 0, []⟩

/-- Kebab counterexample API: only the degenerate empty-name id `a-b/`
resolves; in particular `a/b` 404s. -/
def ghC2 : GitHub :=
  ⟨fun n => if n == "a-b/".data then .ok repoAB else .error 404,
    fun _ => .error 500, fun _ _ => .error 500, fun _ => [], fun _ => .ok []⟩

/-- Commit-listing witness API: two single-commit pages, compare raises 403. -/
def ghC3 : GitHub :=
  ⟨fun _ => .error 404, fun _ => .error 500, fun _ _ => .error 403,
    fun _ => [.ok [⟨"a".data⟩], .ok [⟨"b".data⟩]], fun _ => .ok []⟩

/-- Same commit pages as `ghC3` but a different compare endpoint. -/
def ghC3b : GitHub :=
  ⟨fun _ => .error 404, fun _ => .error 500, fun _ _ => .error 500,
    fun _ => [.ok [⟨"a".data⟩], .ok [⟨"b".data⟩]], fun _ => .ok []⟩

/-- Top-scored search hit in the disambiguation witness. -/
def wRepoA : Repo := ⟨"widget".data, 80, "urlA".data⟩

/-- Runner-up search hit in the disambiguation witness. -/
def wRepoB : Repo := ⟨"widget".data, 40, "urlB".data⟩

/-- Disambiguation witness API: searching for `widget` returns two exact-name
hits with scores 80 and 40. -/
def ghC4 : GitHub :=
  ⟨fun _ => .error 404,
    fun q => if q == "widget".data then .ok [wRepoA, wRepoB] else .error 500,
    fun _ _ => .error 500, fun _ => [], fun _ => .ok []⟩

/-- The repository behind the resolution-order witness. -/
def repoTP : Repo := ⟨"vim-markdown".data, 0, []⟩

/-- Resolution-order witness API: exactly `tpope/vim-markdown` exists. -/
def ghC5 : GitHub :=
  ⟨fun n => if n == "tpope/vim-markdown".data then .ok repoTP else .error 404,
    fun _ => .error 500, fun _ _ => .error 500, fun _ => [], fun _ => .ok []⟩

/-- A tag pointing at commit `a`. -/
def tagV1 : Tag := ⟨"v1".data, "a".data⟩

/-- A tag pointing at commit `b`. -/
def tagV2 : Tag := ⟨"v2".data, "b".data⟩

/-- Tag-filter witness API: the repository has tags `v1 -> a` and `v2 -> b`. -/
def ghC7 : GitHub :=
  ⟨fun _ => .error 404, fun _ => .error 500, fun _ _ => .error 500,
    fun _ => [], fun _ => .ok [tagV1, tagV2]⟩

/-- Missing-path witness local repo that records a split ref for every
existing path. -/
def lrC10 : LocalRepo := ⟨[], fun _ => false, fun _ => .ok ("f00d".data)⟩

/-- A local repo differing from `lrC10` only in what the history scan would
return. -/
def lrC10b : LocalRepo := ⟨[], fun _ => false, fun _ => .error .indexError⟩

/-! ## General lemmas -/

theorem length_splitOnP (p : Char → Bool) (l : List Char) :
    (l.splitOnP p).length = l.countP p + 1 := by
  induction l with
  | nil => simp [List.splitOnP_nil]
  | cons x xs ih =>
    rw [List.splitOnP_cons]
    by_cases h : p x
    · simp [h, ih, List.countP_cons]
    · simp [h, ih, List.countP_cons]

theorem length_splitOn (c : Char) (l : List Char) :
    (l.splitOn c).length = l.countP (· == c) + 1 :=
  length_splitOnP _ l

theorem fetch_commit_pages_ok (pages : List (List Commit)) :
    fetch_commit_pages (pages.map Except.ok) = .ok pages.flatten := by
  induction pages with
  | nil => rfl
  | cons p ps ih => simp [fetch_commit_pages, ih]

/-! ## C6: exact lookup -/

/-- C6: `repo_for_exact_name` returns the repository on HTTP success, raises
`KeyError` (NotFound) exactly when the API raises with status 404, and
re-raises any other raising status as the fatal HTTP transport error. -/
theorem exact_lookup_spec (gh : GitHub) (n : PyStr) :
    (∀ r, gh.repos n = .ok r → repo_for_exact_name gh n = .ok r) ∧
    ((∃ m, repo_for_exact_name gh n = .error (.keyError m)) ↔ gh.repos n = .error 404) ∧
    (∀ status, gh.repos n = .error status → status ≠ 404 →
      repo_for_exact_name gh n = .error (.httpError status)) := by
  refine ⟨fun r hr => by simp [repo_for_exact_name, hr], ⟨fun ⟨m, hm⟩ => ?_, fun h => ?_⟩,
    fun status hs hne => ?_⟩
  · revert hm
    unfold repo_for_exact_name
    match hrep : gh.repos n with
    | .ok r => simp
    | .error status =>
      by_cases h4 : status = 404 <;> simp [h4]
  · exact ⟨("Not found: ".data) ++ n, by simp [repo_for_exact_name, h]⟩
  · simp [repo_for_exact_name, hs, hne]

/-- Witness for C6 at a concrete API and name. -/
theorem exact_lookup_spec_witness :
    ∃ m, repo_for_exact_name ghAll404 ("tpope/vim-markdown".data) = .error (.keyError m) :=
  (exact_lookup_spec ghAll404 ("tpope/vim-markdown".data)).2.1.mpr (by decide)

/-! ## C7: tag filtering -/

/-- C7: `tags_in_commits` returns exactly the repository tags whose target
commit sha occurs among the shas of the given commits. -/
theorem tags_filter_spec (gh : GitHub) (repo : Repo) (commits : List Commit)
    (all_tags : List Tag) (h : gh.tags repo = .ok all_tags) :
    ∃ res, tags_in_commits gh repo commits = .ok res ∧
      ∀ tag, tag ∈ res ↔ tag ∈ all_tags ∧ tag.commit_sha ∈ commits.map Commit.sha := by
  have hres : tags_in_commits gh repo commits =
      .ok (all_tags.filter fun tag => commits.any fun commit => commit.sha == tag.commit_sha) := by
    simp [tags_in_commits, h]
  refine ⟨_, hres, fun tag => ?_⟩
  simp only [List.mem_filter, List.any_eq_true, beq_iff_eq, List.mem_map]

/-- Witness for C7: tags `v1 -> a`, `v2 -> b` against the commit set `{a}`. -/
theorem tags_filter_spec_witness :
    ∃ res, tags_in_commits ghC7 repoB [⟨"a".data⟩] = .ok res ∧
      ∀ tag, tag ∈ res ↔ tag ∈ [tagV1, tagV2] ∧
        tag.commit_sha ∈ ([⟨"a".data⟩] : List Commit).map Commit.sha :=
  tags_filter_spec ghC7 repoB [⟨"a".data⟩] [tagV1, tagV2] (by decide)

/-! ## C3: divergence with no prior ref -/

/-- C3: with an absent (`None` or empty) `since_ref`, `repo_commits_since`
never consults the compare endpoint (the result only depends on the paginated
commit listing) and, when every page fetch succeeds, returns status `ahead`,
`ahead_by` equal to the total number of commits enumerated, and that full
commit list. -/
theorem commits_since_no_ref_spec (gh gh2 : GitHub) (repo : Repo) (since_ref : Option PyStr)
    (h : pyTruthyStr since_ref = false) :
    (gh.commitPages repo = gh2.commitPages repo →
      repo_commits_since gh repo since_ref = repo_commits_since gh2 repo since_ref) ∧
    (∀ pages : List (List Commit), gh.commitPages repo = pages.map Except.ok →
      repo_commits_since gh repo since_ref =
        .ok ⟨"ahead".data, pages.flatten.length, pages.flatten⟩) := by
  constructor
  · intro hpages
    simp [repo_commits_since, h, hpages]
  · intro pages hpages
    simp [repo_commits_since, h, hpages, fetch_commit_pages_ok]

/-- Witness for C3: two pages of one commit each, under two APIs that differ
only in their compare endpoints. -/
theorem commits_since_no_ref_spec_witness :
    repo_commits_since ghC3 repoB none = repo_commits_since ghC3b repoB none ∧
    repo_commits_since ghC3 repoB none =
      .ok ⟨"ahead".data, ([[⟨"a".data⟩], [⟨"b".data⟩]] : List (List Commit)).flatten.length,
        ([[⟨"a".data⟩], [⟨"b".data⟩]] : List (List Commit)).flatten⟩ :=
  ⟨(commits_since_no_ref_spec ghC3 ghC3b repoB none (by decide)).1 rfl,
    (commits_since_no_ref_spec ghC3 ghC3b repoB none (by decide)).2
      ([[⟨"a".data⟩], [⟨"b".data⟩]] : List (List Commit)) rfl⟩

/-! ## C10: a missing path yields a new subtree, never an error -/

theorem mk_subtree_congr (lr lr2 : LocalRepo) (p : PyStr)
    (hpe : lr.path_exists = lr2.path_exists)
    (hsr : ∀ p, lr.path_exists p = true →
      lr.last_split_ref_scan p = lr2.last_split_ref_scan p) :
    mk_subtree lr p = mk_subtree lr2 p := by
  have hpe2 : lr2.path_exists p = lr.path_exists p := (congrFun hpe p).symm
  unfold mk_subtree
  rw [hpe2]
  cases hp : lr.path_exists p with
  | false => simp
  | true => rw [hsr p hp]

theorem mapM_mk_subtree_congr (lr lr2 : LocalRepo) (l : List PyStr)
    (hpe : lr.path_exists = lr2.path_exists)
    (hsr : ∀ p, lr.path_exists p = true →
      lr.last_split_ref_scan p = lr2.last_split_ref_scan p) :
    l.mapM (mk_subtree lr) = l.mapM (mk_subtree lr2) := by
  induction l with
  | nil => rfl
  | cons x xs ih =>
    rw [List.mapM_cons, List.mapM_cons, mk_subtree_congr lr lr2 x hpe hsr, ih]

theorem mapM_mk_subtree_missing (lr : LocalRepo) (l : List PyStr)
    (h : ∀ p ∈ l, lr.path_exists p = false) :
    l.mapM (mk_subtree lr) = .ok (l.map fun p => ⟨p, none⟩) := by
  induction l with
  | nil => rfl
  | cons x xs ih =>
    have hx : mk_subtree lr x = .ok ⟨x, none⟩ := by
      simp [mk_subtree, h x (List.mem_cons_self x xs)]
    have hxs := ih fun p hp => h p (List.mem_cons_of_mem _ hp)
    rw [List.mapM_cons, hx, hxs]
    rfl

/-- C10: a prefix whose path does not exist yields a `Subtree` with
`last_split_ref = None` (so `exists` is false and it is classified as new);
the local history is scanned only for existing paths (the result does not
depend on the scan elsewhere); a batch of missing paths validates without
error. -/
theorem missing_path_spec :
    (∀ (lr : LocalRepo) (p : PyStr), lr.path_exists p = false →
      mk_subtree lr p = .ok ⟨p, none⟩ ∧ Subtree.subtree_exists ⟨p, none⟩ = false) ∧
    (∀ (lr lr2 : LocalRepo) (is_all : Bool) (prefixes : List PyStr),
      lr.all_subtree_prefixes = lr2.all_subtree_prefixes →
      lr.path_exists = lr2.path_exists →
      (∀ p, lr.path_exists p = true →
        lr.last_split_ref_scan p = lr2.last_split_ref_scan p) →
      validate_subtrees lr is_all prefixes = validate_subtrees lr2 is_all prefixes) ∧
    (∀ (lr : LocalRepo) (prefixes : List PyStr), prefixes ≠ [] →
      (∀ p ∈ prefixes, lr.path_exists p = false) →
      validate_subtrees lr false prefixes = .ok (prefixes.map fun p => ⟨p, none⟩)) := by
  refine ⟨fun lr p h => ⟨by simp [mk_subtree, h], by simp [Subtree.subtree_exists, pyTruthyStr]⟩,
    fun lr lr2 is_all prefixes hall hpe hsr => ?_, fun lr prefixes hne hmiss => ?_⟩
  · unfold validate_subtrees
    rw [hall]
    by_cases hA : is_all = true
    · rw [if_pos hA, if_pos hA]
      by_cases hE : lr2.all_subtree_prefixes.isEmpty = true
      · rw [if_pos hE, if_pos hE]
      · rw [if_neg hE, if_neg hE]
        exact mapM_mk_subtree_congr lr lr2 _ hpe hsr
    · rw [if_neg hA, if_neg hA]
      by_cases hE : prefixes.isEmpty = true
      · rw [if_pos hE, if_pos hE]
      · rw [if_neg hE, if_neg hE]
        exact mapM_mk_subtree_congr lr lr2 _ hpe hsr
  · have hemp : ¬ prefixes.isEmpty = true := by
      cases prefixes with
      | nil => exact absurd rfl hne
      | cons x xs => simp
    unfold validate_subtrees
    rw [if_neg Bool.false_ne_true, if_neg hemp]
    exact mapM_mk_subtree_missing lr prefixes hmiss

/-- Witness for C10 at a concrete missing path. -/
theorem missing_path_spec_witness :
    mk_subtree lrC10 ("vendor/libx".data) = .ok ⟨"vendor/libx".data, none⟩ ∧
    validate_subtrees lrC10 false [("vendor/libx".data)] =
      validate_subtrees lrC10b false [("vendor/libx".data)] ∧
    validate_subtrees lrC10 false [("vendor/libx".data)] =
      .ok [⟨"vendor/libx".data, none⟩] :=
  ⟨(missing_path_spec.1 lrC10 ("vendor/libx".data) rfl).1,
    missing_path_spec.2.1 lrC10 lrC10b false [("vendor/libx".data)] rfl rfl
      (fun p hp => by simp [lrC10] at hp),
    missing_path_spec.2.2 lrC10 [("vendor/libx".data)] (by simp)
      (fun p hp => rfl)⟩

/-! ## Helper lemmas on the confidence check -/

theorem is_confident_match_cons2 (s0 s1 : ℚ) (rest : List ℚ) :
    is_confident_match (s0 :: s1 :: rest) =
      if s0 > 50 ∧ s0 - s1 > 30 then .ok (true :: List.replicate (rest.length + 1) false)
      else .ok (false :: List.replicate (rest.length + 1) false) := by
  simp only [is_confident_match, List.length_cons, List.getElem?_cons_zero,
    List.getElem?_cons_succ, List.replicate_succ, List.set_cons_zero]
  by_cases h0 : s0 > 50
  · by_cases h1 : s0 - s1 > 30
    · simp [h0, h1]
    · simp [h0, h1]
  · simp [h0]

theorem is_confident_match_total (scores : List ℚ) (h : 2 ≤ scores.length) :
    ∃ bs, is_confident_match scores = .ok bs ∧ bs.length = scores.length := by
  match scores, h with
  | s0 :: s1 :: rest, _ =>
    by_cases hc : s0 > 50 ∧ s0 - s1 > 30
    · exact ⟨true :: List.replicate (rest.length + 1) false,
        by rw [is_confident_match_cons2, if_pos hc], by simp⟩
    · exact ⟨false :: List.replicate (rest.length + 1) false,
        by rw [is_confident_match_cons2, if_neg hc], by simp⟩

/-! ## C9: subscripts reachable from repo_for_partial_name are in bounds -/

/-- C9 counterexample: on the single-score list `[40]` the confidence check
succeeds, so `scores[1]` is not read when `scores[0]` is below the high-score
threshold — the Python `and` short-circuits, refuting the unconditional-read
premise of the claim. -/
theorem confident_match_short_circuit_counterexample :
    is_confident_match [(40 : ℚ)] = .ok [false] := by decide

/-- C9 (amended): `is_confident_match` reads `scores[0]` unconditionally but
`scores[1]` only when `scores[0]` clears the high-score threshold; every call
reachable from `repo_for_partial_name` passes at least two scores, so all its
subscripts stay in bounds there and `repo_for_partial_name` never raises
`IndexError`. -/
theorem confident_match_bounds_spec :
    (∀ scores : List ℚ, 2 ≤ scores.length →
      ∃ bs, is_confident_match scores = .ok bs ∧ bs.length = scores.length) ∧
    (∀ s0 : ℚ, ¬ s0 > 50 → is_confident_match [s0] = .ok [false]) ∧
    (∀ (gh : GitHub) (inputs : List Int) (q : PyStr),
      repo_for_partial_name gh inputs q ≠ some (.error .indexError)) := by
  refine ⟨is_confident_match_total, fun s0 h0 => by simp [is_confident_match, h0],
    fun gh inputs q => ?_⟩
  cases hs : gh.searchItems q with
  | error s => simp [repo_for_partial_name, hs]
  | ok items =>
    simp only [repo_for_partial_name, hs]
    set repos := items.filter (fun r => r.name == q) with hreposdef
    by_cases hemp : repos.isEmpty = true
    · simp [hemp]
    · have hne : repos ≠ [] := fun hnil => hemp (by simp [hnil])
      by_cases hl1 : repos.length = 1
      · have h0 : 0 < repos.length := by omega
        simp [hemp, hl1, List.getElem?_eq_getElem h0]
      · have hlen2 : 2 ≤ repos.length := by
          have := List.length_pos.mpr hne
          omega
        obtain ⟨bs, hbs, hlbs⟩ := is_confident_match_total (repos.map Repo.score)
          (by rw [List.length_map]; exact hlen2)
        simp only [hemp, hl1, beq_iff_eq, if_false, if_neg, hbs]
        cases bs with
        | nil => simp at hlbs; omega
        | cons b bs2 =>
          simp only [List.getElem?_cons_zero]
          cases b with
          | true =>
            have h0 : 0 < repos.length := by omega
            simp [hemp, hl1, List.getElem?_eq_getElem h0]
          | false =>
            cases hp : prompt_to_disambiguate_repos inputs repos with
            | none => simp [hemp, hl1, hp]
            | some i =>
              have hi : i < repos.length := by
                unfold prompt_to_disambiguate_repos at hp
                cases hc : click_prompt_IntRange inputs 1 (repos.length : Int) with
                | none => rw [hc] at hp; exact absurd hp (by simp)
                | some c =>
                  rw [hc] at hp
                  have hrange := List.find?_some hc
                  simp only [Bool.and_eq_true, decide_eq_true_eq] at hrange
                  have hival : i = (c - 1).toNat := by
                    simpa using hp.symm
                  have h0c : (0 : Int) ≤ c - 1 := by omega
                  rw [hival]
                  rw [Int.toNat_lt h0c]
                  omega
              simp [hemp, hl1, hp, List.getElem?_eq_getElem hi]

/-- Witness for C9 at two concrete scores and a concrete search query. -/
theorem confident_match_bounds_spec_witness :
    (∃ bs, is_confident_match [(80 : ℚ), 40] = .ok bs ∧ bs.length = 2) ∧
    is_confident_match [(40 : ℚ)] = .ok [false] ∧
    repo_for_partial_name ghC4 [] ("widget".data) ≠ some (.error .indexError) :=
  ⟨confident_match_bounds_spec.1 [(80 : ℚ), 40] (by decide),
    confident_match_bounds_spec.2.1 40 (by norm_num),
    confident_match_bounds_spec.2.2 ghC4 [] ("widget".data)⟩

/-! ## C4: disambiguation policy -/

/-- C4: with a non-empty list of exact-name candidates, index 0 is
auto-selected iff there is exactly one candidate or the top score exceeds 50
and leads the runner-up by more than 30; otherwise the user is prompted and
the validated 1-based choice, within the candidate count, selects the
repository. -/
theorem disambiguation_spec (gh : GitHub) (inputs : List Int) (q : PyStr)
    (items repos : List Repo) (scores : List ℚ)
    (hs : gh.searchItems q = .ok items)
    (hrepos : items.filter (fun r => r.name == q) = repos)
    (hscores : repos.map Repo.score = scores)
    (hne : repos ≠ []) :
    ((repos.length = 1 ∨
        ∃ s0 s1, scores[0]? = some s0 ∧ scores[1]? = some s1 ∧ s0 > 50 ∧ s0 - s1 > 30) →
      repo_for_partial_name gh inputs q = some (.ok (repos.headD ⟨[], 0, []⟩))) ∧
    (¬ (repos.length = 1 ∨
        ∃ s0 s1, scores[0]? = some s0 ∧ scores[1]? = some s1 ∧ s0 > 50 ∧ s0 - s1 > 30) →
      (click_prompt_IntRange inputs 1 (repos.length : Int) = none →
        repo_for_partial_name gh inputs q = none) ∧
      (∀ c, click_prompt_IntRange inputs 1 (repos.length : Int) = some c →
        1 ≤ c ∧ c ≤ (repos.length : Int) ∧
        repo_for_partial_name gh inputs q =
          some (.ok (repos.getD (c - 1).toNat ⟨[], 0, []⟩)))) := by
  constructor
  · rintro (hl1 | ⟨s0, s1, h0, h1, hgt, hdiff⟩)
    · obtain ⟨r, hr⟩ := List.length_eq_one.mp hl1
      simp only [repo_for_partial_name, hs, hrepos, hr]
      simp
    · have h1lt : 1 < scores.length := by
        by_contra hle
        rw [List.getElem?_eq_none (by omega)] at h1
        exact absurd h1 (by simp)
      have hlen2 : 2 ≤ repos.length := by
        rw [← hscores, List.length_map] at h1lt
        omega
      have hl1ne : ¬ repos.length = 1 := by omega
      obtain ⟨r0, r1, rrest, hrshape⟩ : ∃ a b l, repos = a :: b :: l := by
        match repos, hlen2 with
        | a :: b :: l, _ => exact ⟨a, b, l, rfl⟩
      have e0 : scores[0]? = some r0.score := by rw [← hscores, hrshape]; simp
      have e1 : scores[1]? = some r1.score := by rw [← hscores, hrshape]; simp
      rw [h0, Option.some.injEq] at e0
      rw [h1, Option.some.injEq] at e1
      have hgt0 : r0.score > 50 ∧ r0.score - r1.score > 30 := by
        rw [← e0, ← e1]
        exact ⟨hgt, hdiff⟩
      have hconf : is_confident_match (repos.map Repo.score) =
          .ok (true :: List.replicate ((rrest.map Repo.score).length + 1) false) := by
        rw [hrshape]
        simp only [List.map_cons]
        rw [is_confident_match_cons2, if_pos hgt0]
      have hempf : repos.isEmpty = false := by rw [hrshape]; rfl
      have h00 : repos[0]? = some r0 := by rw [hrshape]; rfl
      have hhead : repos.head? = some r0 := by rw [hrshape]; rfl
      simp only [repo_for_partial_name, hs, hrepos]
      simp [hempf, hl1ne, hconf, h00, hhead]
  · intro hncond
    have hl1ne : repos.length ≠ 1 := fun h => hncond (Or.inl h)
    have hlen2 : 2 ≤ repos.length := by
      have := List.length_pos.mpr hne
      omega
    obtain ⟨r0, r1, rrest, hrshape⟩ : ∃ a b l, repos = a :: b :: l := by
      match repos, hlen2 with
      | a :: b :: l, _ => exact ⟨a, b, l, rfl⟩
    have hnc2 : ¬ (r0.score > 50 ∧ r0.score - r1.score > 30) := by
      rintro ⟨ha, hb⟩
      refine hncond (Or.inr ⟨r0.score, r1.score, ?_, ?_, ha, hb⟩)
      · rw [← hscores, hrshape]; simp
      · rw [← hscores, hrshape]; simp
    have hconf : is_confident_match (repos.map Repo.score) =
        .ok (false :: List.replicate ((rrest.map Repo.score).length + 1) false) := by
      rw [hrshape]
      simp only [List.map_cons]
      rw [is_confident_match_cons2, if_neg hnc2]
    have hempf : repos.isEmpty = false := by rw [hrshape]; rfl
    constructor
    · intro hclick
      simp only [repo_for_partial_name, hs, hrepos]
      simp [hempf, hl1ne, hconf, prompt_to_disambiguate_repos, hclick]
    · intro c hclick
      have hclick2 : inputs.find? (fun x => decide (1 ≤ x) && decide (x ≤ (repos.length : Int)))
          = some c := by
        unfold click_prompt_IntRange at hclick
        exact hclick
      have hrange := List.find?_some hclick2
      simp only [Bool.and_eq_true, decide_eq_true_eq] at hrange
      have he : (c - 1).toNat = c.toNat - 1 := by omega
      have hi : c.toNat - 1 < repos.length := by omega
      refine ⟨hrange.1, hrange.2, ?_⟩
      simp only [repo_for_partial_name, hs, hrepos]
      simp [hempf, hl1ne, hconf, prompt_to_disambiguate_repos, hclick, he,
        List.getElem?_eq_getElem hi]

/-- Witness for C4: the search for `widget` returns two exact-name hits with
scores 80 and 40, and the top one is auto-selected. -/
theorem disambiguation_spec_witness :
    repo_for_partial_name ghC4 [] ("widget".data) = some (.ok wRepoA) :=
  (disambiguation_spec ghC4 [] ("widget".data) [wRepoA, wRepoB] [wRepoA, wRepoB]
      [80, 40] (by decide) (by decide) (by decide) (by decide)).1
    (Or.inr ⟨80, 40, by decide, by decide, by norm_num, by norm_num⟩)

/-! ## C2: kebab splits -/

theorem kebab_candidates_length (s : PyStr) :
    (kebab_candidates s).length = hyphen_count s + 1 := by
  simp [kebab_candidates, hyphen_count, length_splitOn]

theorem kebab_candidates_get (s : PyStr) (i : Nat) (h : i < (kebab_candidates s).length) :
    (kebab_candidates s).get ⟨i, h⟩ =
      List.intercalate ['-'] ((s.splitOn '-').take (i + 1)) ++
        '/' :: List.intercalate ['-'] ((s.splitOn '-').drop (i + 1)) := by
  simp [kebab_candidates]

theorem kebab_candidates_last (s : PyStr) :
    (kebab_candidates s).getLastD [] = s ++ ['/'] := by
  have hn : 0 < (s.splitOn '-').length := List.length_pos.mpr (List.splitOnP_ne_nil _ s)
  have hlen : (kebab_candidates s).length = (s.splitOn '-').length := by
    simp [kebab_candidates]
  have hpos : 0 < (kebab_candidates s).length := by omega
  have hidx : (kebab_candidates s).length - 1 < (kebab_candidates s).length := by omega
  rw [List.getLastD_eq_getLast?, List.getLast?_eq_getElem?, List.getElem?_eq_getElem hidx,
    Option.getD_some]
  have := kebab_candidates_get s ((kebab_candidates s).length - 1) hidx
  rw [List.get_eq_getElem] at this
  rw [this]
  have hsucc : (kebab_candidates s).length - 1 + 1 = (s.splitOn '-').length := by omega
  rw [hsucc, List.take_length, List.drop_length, List.intercalate_splitOn]
  rfl

theorem kebab_loop_all_fail (gh : GitHub) (cands : List PyStr) :
    ∀ m0 : PyStr,
      (∀ c ∈ cands, ∃ m, repo_for_exact_name gh c = .error (.keyError m)) →
      ∃ m, kebab_loop gh cands (.keyError m0) = .error (.keyError m) := by
  induction cands with
  | nil => exact fun m0 _ => ⟨m0, rfl⟩
  | cons c cs ih =>
    intro m0 h
    obtain ⟨m, hm⟩ := h c (List.mem_cons_self c cs)
    have hstep : kebab_loop gh (c :: cs) (.keyError m0) = kebab_loop gh cs (.keyError m) := by
      simp only [kebab_loop, hm]
    rw [hstep]
    exact ih m fun x hx => h x (List.mem_cons_of_mem _ hx)

theorem kebab_loop_first_success (gh : GitHub) (cands : List PyStr) :
    ∀ (i : Nat) (h : i < cands.length) (r : Repo) (e0 : PyErr),
      (∀ j (hj : j < i), ∃ m,
        repo_for_exact_name gh (cands.get ⟨j, Nat.lt_trans hj h⟩) = .error (.keyError m)) →
      repo_for_exact_name gh (cands.get ⟨i, h⟩) = .ok r →
      kebab_loop gh cands e0 = .ok r := by
  induction cands with
  | nil => intro i h; exact absurd h (Nat.not_lt_zero i)
  | cons c cs ih =>
    intro i h r e0 hfail hsucc
    cases i with
    | zero =>
      have hs : repo_for_exact_name gh c = .ok r := hsucc
      simp only [kebab_loop, hs]
    | succ i2 =>
      obtain ⟨m, hm⟩ := hfail 0 (Nat.succ_pos i2)
      have hm2 : repo_for_exact_name gh c = .error (.keyError m) := hm
      have hstep : kebab_loop gh (c :: cs) e0 = kebab_loop gh cs (.keyError m) := by
        simp only [kebab_loop, hm2]
      rw [hstep]
      exact ih i2 (Nat.lt_of_succ_lt_succ h) r (.keyError m)
        (fun j hj => hfail (j + 1) (Nat.succ_lt_succ hj)) hsucc

/-- C2 counterexample: for basename `a-b` (one hyphen) the claim predicts a
single owner/name split `a/b` whose failure must yield NotFound; the code
performs one more exact lookup, on the degenerate split `a-b/` with an empty
name component, and under `ghC2` (where `a/b` 404s but `a-b/` resolves) it
returns that repository instead of raising — with the same verdict on `a/b`,
`ghAll404` gets NotFound, so the outcome is not determined by the k claimed
splits. -/
theorem kebab_extra_split_counterexample :
    hyphen_count ("a-b".data) = 1 ∧
    ghC2.repos ("a/b".data) = .error 404 ∧
    ghAll404.repos ("a/b".data) = .error 404 ∧
    repo_for_kebab_name ghC2 ("a-b".data) = .ok repoAB ∧
    repo_for_kebab_name ghAll404 ("a-b".data) =
      .error (.keyError ("Not found: a-b/".data)) := by
  decide

/-- C2 (amended): for a basename with k hyphens the kebab strategy performs
one exact lookup per hyphen-delimited token, i.e. k+1 splits in order from
shortest owner to longest owner, the last being the whole basename as owner
with an empty name; it returns the repository of the first split whose exact
lookup succeeds and raises NotFound only when all k+1 lookups fail. -/
theorem kebab_strategy_spec (gh : GitHub) (s : PyStr) :
    ((kebab_candidates s).length = hyphen_count s + 1) ∧
    (∀ i (h : i < (kebab_candidates s).length),
      (kebab_candidates s).get ⟨i, h⟩ =
        List.intercalate ['-'] ((s.splitOn '-').take (i + 1)) ++
          '/' :: List.intercalate ['-'] ((s.splitOn '-').drop (i + 1))) ∧
    ((kebab_candidates s).getLastD [] = s ++ ['/']) ∧
    (∀ i (h : i < (kebab_candidates s).length) (r : Repo),
      (∀ j (hj : j < i), ∃ m,
        repo_for_exact_name gh ((kebab_candidates s).get ⟨j, Nat.lt_trans hj h⟩) =
          .error (.keyError m)) →
      repo_for_exact_name gh ((kebab_candidates s).get ⟨i, h⟩) = .ok r →
      repo_for_kebab_name gh s = .ok r) ∧
    ((∀ c ∈ kebab_candidates s, ∃ m, repo_for_exact_name gh c = .error (.keyError m)) →
      ∃ m, repo_for_kebab_name gh s = .error (.keyError m)) :=
  ⟨kebab_candidates_length s, kebab_candidates_get s, kebab_candidates_last s,
    fun i h r hfail hsucc =>
      kebab_loop_first_success gh (kebab_candidates s) i h r (.keyError []) hfail hsucc,
    fun hfail => kebab_loop_all_fail gh (kebab_candidates s) [] hfail⟩

/-- Witness for C2 on the basename `a-b`: both scheduled lookups (`a/b` and
the degenerate `a-b/`) fail with 404 under `ghAll404`, so the strategy raises
NotFound, and two lookups are scheduled for the one hyphen. -/
theorem kebab_strategy_spec_witness :
    (kebab_candidates ("a-b".data)).length = hyphen_count ("a-b".data) + 1 ∧
    (∃ m, repo_for_kebab_name ghAll404 ("a-b".data) = .error (.keyError m)) :=
  ⟨(kebab_strategy_spec ghAll404 ("a-b".data)).1,
    (kebab_strategy_spec ghAll404 ("a-b".data)).2.2.2.2 (by
      intro c hc
      have hK : kebab_candidates ("a-b".data) = [("a/b".data), ("a-b/".data)] := by decide
      rw [hK] at hc
      rcases List.mem_pair.mp hc with rfl | rfl
      · exact ⟨("Not found: a/b".data), by decide⟩
      · exact ⟨("Not found: a-b/".data), by decide⟩)⟩

/-! ## C5: strategy order in find_subtree_remote -/

theorem contains_iff_countP_pos (s : PyStr) (c : Char) :
    s.contains c = true ↔ 0 < s.countP (· == c) := by
  rw [List.countP_pos_iff]
  constructor
  · intro h
    exact ⟨c, List.elem_iff.mp h, by simp⟩
  · rintro ⟨a, ha, hpa⟩
    rw [beq_iff_eq] at hpa
    subst hpa
    exact List.elem_iff.mpr ha

theorem pyRsplit2_two_le_iff (s : PyStr) :
    2 ≤ (pyRsplit2 '/' s).length ↔ s.contains '/' = true := by
  rw [contains_iff_countP_pos]
  unfold pyRsplit2
  by_cases hle : (s.splitOn '/').length ≤ 3
  · rw [if_pos hle, length_splitOn]
    have hcount := length_splitOn '/' s
    constructor
    · intro h2
      omega
    · intro hpos
      omega
  · rw [if_neg hle]
    have hcount := length_splitOn '/' s
    simp only [List.length_cons, List.length_drop]
    constructor
    · intro _
      omega
    · intro _
      omega

/-- C5: resolution tries exact (only when the stripped path has at least two
segments, equivalently contains a separator), then the kebab splits (only
when the basename has a hyphen), then the fuzzy search, stopping at the first
success; when all applicable strategies are exhausted it fails with the
user-facing NotFound condition `No remotes found for <basename>`. -/
theorem resolution_order_spec (gh : GitHub) (inputs : List Int) (p : PyStr)
    (split : List PyStr) (base exact_id : PyStr)
    (hsplit : pyRsplit2 '/' (pyRstrip '/' p) = split)
    (hbase : pyBasename (pyRstrip '/' p) = base)
    (hexact : exact_name_of_split split = exact_id) :
    (2 ≤ split.length ↔ (pyRstrip '/' p).contains '/' = true) ∧
    (∀ r, 2 ≤ split.length → repo_for_exact_name gh exact_id = .ok r →
      find_remote_repo gh inputs p = some (.ok r)) ∧
    (∀ r, (2 ≤ split.length → ∃ m, repo_for_exact_name gh exact_id = .error (.keyError m)) →
      base.contains '-' = true → repo_for_kebab_name gh base = .ok r →
      find_remote_repo gh inputs p = some (.ok r)) ∧
    ((2 ≤ split.length → ∃ m, repo_for_exact_name gh exact_id = .error (.keyError m)) →
      (base.contains '-' = true → ∃ m, repo_for_kebab_name gh base = .error (.keyError m)) →
      find_remote_repo gh inputs p = repo_for_partial_name gh inputs base) ∧
    ((2 ≤ split.length → ∃ m, repo_for_exact_name gh exact_id = .error (.keyError m)) →
      (base.contains '-' = true → ∃ m, repo_for_kebab_name gh base = .error (.keyError m)) →
      ∀ items, gh.searchItems base = .ok items →
      (items.filter fun r => r.name == base) = [] →
      find_remote_repo gh inputs p =
        some (.error (.valueError (("No remotes found for ".data) ++ base)))) := by
  have hfuzzy : (2 ≤ split.length → ∃ m, repo_for_exact_name gh exact_id = .error (.keyError m)) →
      (base.contains '-' = true → ∃ m, repo_for_kebab_name gh base = .error (.keyError m)) →
      find_remote_repo gh inputs p = repo_for_partial_name gh inputs base := by
    intro hex hkb
    by_cases h2 : 2 ≤ split.length
    · obtain ⟨m, hm⟩ := hex h2
      by_cases hk : base.contains '-' = true
      · obtain ⟨m2, hm2⟩ := hkb hk
        have hkm : '-' ∈ base := List.elem_iff.mp hk
        simp [find_remote_repo, hsplit, hexact, hbase, h2, hm, hkm, hm2]
      · have hkm : ¬ '-' ∈ base := fun hmem => hk (List.elem_iff.mpr hmem)
        simp [find_remote_repo, hsplit, hexact, hbase, h2, hm, hkm]
    · by_cases hk : base.contains '-' = true
      · obtain ⟨m2, hm2⟩ := hkb hk
        have hkm : '-' ∈ base := List.elem_iff.mp hk
        simp [find_remote_repo, hsplit, hbase, h2, hkm, hm2]
      · have hkm : ¬ '-' ∈ base := fun hmem => hk (List.elem_iff.mpr hmem)
        simp [find_remote_repo, hsplit, hbase, h2, hkm]
  refine ⟨by rw [← hsplit]; exact pyRsplit2_two_le_iff (pyRstrip '/' p),
    fun r h2 hok => by simp [find_remote_repo, hsplit, hexact, hbase, h2, hok],
    fun r hex hk hkebab => ?_, hfuzzy, fun hex hkb items hsearch hfilter => ?_⟩
  · have hkm : '-' ∈ base := List.elem_iff.mp hk
    by_cases h2 : 2 ≤ split.length
    · obtain ⟨m, hm⟩ := hex h2
      simp [find_remote_repo, hsplit, hexact, hbase, h2, hm, hkm, hkebab]
    · simp [find_remote_repo, hsplit, hbase, h2, hkm, hkebab]
  · rw [hfuzzy hex hkb]
    simp [repo_for_partial_name, hsearch, hfilter]

/-- Witness for C5: the path `vendor/tpope/vim-markdown` resolves through the
exact strategy on its last two segments. -/
theorem resolution_order_spec_witness :
    find_remote_repo ghC5 [] ("vendor/tpope/vim-markdown".data) = some (.ok repoTP) :=
  (resolution_order_spec ghC5 [] ("vendor/tpope/vim-markdown".data)
      [("vendor".data), ("tpope".data), ("vim-markdown".data)] ("vim-markdown".data)
      ("tpope/vim-markdown".data) (by decide) (by decide) (by decide)).2.1 repoTP
    (by decide) (by decide)

/-! ## C1: batch failure semantics -/

theorem find_remotes_loop_error (f : Subtree → Option (Except PyErr SubtreeRemote)) :
    ∀ (pre : List Subtree) (st : Subtree) (post : List Subtree) (e : PyErr),
      (∀ s ∈ pre, ∃ r, f s = some (.ok r)) →
      f st = some (.error e) →
      find_remotes_loop f (pre ++ st :: post) = some (.error e) := by
  intro pre
  induction pre with
  | nil =>
    intro st post e hpre hst
    simp only [List.nil_append, find_remotes_loop, hst]
  | cons a l ih =>
    intro st post e hpre hst
    obtain ⟨r, hr⟩ := hpre a (List.mem_cons_self a l)
    have hrec := ih st post e (fun s hs => hpre s (List.mem_cons_of_mem _ hs)) hst
    simp only [List.cons_append, find_remotes_loop, hr, List.append_eq, hrec]

/-- C1 counterexample: in the batch `[liba, o/libb]` the first resolution
fails with a transport error (search raises 500) while the second subtree is
perfectly resolvable on its own; the batch returns only that error — the
second subtree is neither resolved nor reported, and no per-position report
exists. -/
theorem batch_abort_counterexample :
    validate_subtree_remotes lrC1 ghC1 (fun _ => []) false [("liba".data), ("o/libb".data)] =
      some (.error (.httpError 500)) ∧
    find_subtree_remote ghC1 [] ⟨("o/libb".data), none⟩ =
      some (.ok ⟨⟨("o/libb".data), none⟩, repoB, ⟨"ahead".data, 0, []⟩, []⟩) := by
  constructor
  · decide
  · decide

/-- C1 (amended): batch resolution is not partial-failure tolerant: the first
subtree whose resolution raises (TransportError, NotFound, or any other
exception) aborts the whole invocation with that error, and no subtree after
it is resolved or reported. -/
theorem batch_abort_spec (local_repo : LocalRepo) (gh : GitHub)
    (inputsFor : Subtree → List Int) (is_all : Bool) (prefixes : List PyStr)
    (pre post : List Subtree) (st : Subtree) (e : PyErr)
    (hv : validate_subtrees local_repo is_all prefixes = .ok (pre ++ st :: post))
    (hpre : ∀ s ∈ pre, ∃ r, find_subtree_remote gh (inputsFor s) s = some (.ok r))
    (hst : find_subtree_remote gh (inputsFor st) st = some (.error e)) :
    validate_subtree_remotes local_repo gh inputsFor is_all prefixes = some (.error e) := by
  unfold validate_subtree_remotes
  rw [hv]
  exact find_remotes_loop_error _ pre st post e hpre hst

/-- Witness for C1 (amended): the concrete aborting batch. -/
theorem batch_abort_spec_witness :
    validate_subtree_remotes lrC1 ghC1 (fun _ => []) false [("liba".data), ("o/libb".data)] =
      some (.error (.httpError 500)) :=
  batch_abort_spec lrC1 ghC1 (fun _ => []) false [("liba".data), ("o/libb".data)]
    [] [⟨("o/libb".data), none⟩] ⟨("liba".data), none⟩ (.httpError 500)
    (by decide) (fun s hs => absurd hs (List.not_mem_nil s)) (by decide)

/-! ## C8: rate limiter -/

theorem grants_by_le (value : Nat) (period t : ℚ) (n : Nat) :
    grants_by value period t n ≤ value + releases_by value period t n := by
  unfold grants_by releases_by
  by_cases hn : n ≤ value
  · calc (List.range n).countP (fun k => grant_time value period k ≤ t)
        ≤ (List.range n).length := List.countP_le_length _
      _ = n := List.length_range n
      _ ≤ value := hn
      _ ≤ value + (List.range n).countP (fun k => release_time value period k ≤ t) :=
        Nat.le_add_right _ _
  · obtain ⟨m, hm⟩ := Nat.exists_eq_add_of_le (le_of_not_le hn)
    subst hm
    have h1 : (List.range value).countP (fun k => grant_time value period k ≤ t) ≤ value := by
      calc (List.range value).countP (fun k => grant_time value period k ≤ t)
          ≤ (List.range value).length := List.countP_le_length _
        _ = value := List.length_range value
    have h2 : (List.range m).countP
          ((fun k => decide (grant_time value period k ≤ t)) ∘ (fun x => value + x)) =
        (List.range m).countP (fun j => release_time value period j ≤ t) := by
      apply List.countP_congr
      intro j hj
      have hgr : grant_time value period (value + j) = release_time value period j := by
        unfold grant_time
        rw [if_neg (by omega)]
        congr 1
        omega
      simp [Function.comp, hgr]
    have hL : (List.range (value + m)).countP (fun k => grant_time value period k ≤ t) =
        (List.range value).countP (fun k => grant_time value period k ≤ t) +
        (List.range m).countP (fun j => release_time value period j ≤ t) := by
      rw [List.range_add, List.countP_append, List.countP_map, h2]
    have h3 : (List.range m).countP (fun j => release_time value period j ≤ t) ≤
        (List.range (value + m)).countP (fun j => release_time value period j ≤ t) :=
      List.Sublist.countP_le _ (List.range_sublist.mpr (Nat.le_add_left m value))
    rw [hL]
    omega

/-- C8: the limiter is constructed with capacity 30 when an authentication
token is configured and 10 otherwise, over a 60+30 second window; under
back-to-back acquisitions the first C are granted immediately and the
(C+1)-th is blocked until the first timed replenishment at time W, hence for
at least W/C seconds of model time after the first token; and the grants
never outrun the capacity plus the replenishments that have happened. -/
theorem rate_limiter_spec (token : Option PyStr) :
    (pyTruthyStr token = true → search_max_per_minute (remote_headers token) = 30) ∧
    (pyTruthyStr token = false → search_max_per_minute (remote_headers token) = 10) ∧
    rated_semaphore_period = 60 + 30 ∧
    (∀ k, k < search_max_per_minute (remote_headers token) →
      grant_time (search_max_per_minute (remote_headers token))
        ((rated_semaphore_period : ℚ)) k = 0) ∧
    ((rated_semaphore_period : ℚ) / (search_max_per_minute (remote_headers token)) ≤
      grant_time (search_max_per_minute (remote_headers token))
        ((rated_semaphore_period : ℚ)) (search_max_per_minute (remote_headers token))) ∧
    (∀ t n, grants_by (search_max_per_minute (remote_headers token))
        ((rated_semaphore_period : ℚ)) t n ≤
      search_max_per_minute (remote_headers token) +
        releases_by (search_max_per_minute (remote_headers token))
          ((rated_semaphore_period : ℚ)) t n) := by
  have hne : ((("Accept".data) : PyStr) == (("Authorization".data) : PyStr)) = false := by decide
  refine ⟨fun h => by simp [remote_headers, h, search_max_per_minute, headers_contains, hne],
    fun h => by simp [remote_headers, h, search_max_per_minute, headers_contains, hne],
    rfl, fun k hk => by simp [grant_time, hk], ?_, fun t n => grants_by_le _ _ t n⟩
  cases htok : pyTruthyStr token with
  | true =>
    have h30 : search_max_per_minute (remote_headers token) = 30 := by
      simp [remote_headers, htok, search_max_per_minute, headers_contains, hne]
    rw [h30]
    norm_num [grant_time, release_time, rated_semaphore_period, search_buffer_s]
  | false =>
    have h10 : search_max_per_minute (remote_headers token) = 10 := by
      simp [remote_headers, htok, search_max_per_minute, headers_contains, hne]
    rw [h10]
    norm_num [grant_time, release_time, rated_semaphore_period, search_buffer_s]

/-- Witness for C8 at a present and an absent token. -/
theorem rate_limiter_spec_witness :
    search_max_per_minute (remote_headers (some ("t".data))) = 30 ∧
    search_max_per_minute (remote_headers none) = 10 ∧
    grants_by (search_max_per_minute (remote_headers none)) ((rated_semaphore_period : ℚ)) 0 11 ≤
      search_max_per_minute (remote_headers none) +
        releases_by (search_max_per_minute (remote_headers none))
          ((rated_semaphore_period : ℚ)) 0 11 :=
  ⟨(rate_limiter_spec (some ("t".data))).1 (by decide),
    (rate_limiter_spec none).2.1 (by decide),
    (rate_limiter_spec none).2.2.2.2.2 0 11⟩

end GSR
